import Mathlib

/-!
Verification of the permission-resolution, error-classification, settings-store
and task-scheduler logic of the DiscordBotUtils repository, via a shallow
embedding of the Python sources in `src/utils/`.

Conventions of the embedding:
* `configparser.ConfigParser` objects are modelled as association lists of
  sections, each section an association list of string key/value pairs
  (`IniConfig`).  `config.get(section, option, fallback=...)` and
  `section in config` are modelled by `IniConfig.get` / `IniConfig.hasSection`.
* Python exceptions are modelled with `Except String`; functions whose source
  cannot raise are plain total functions.
* Discord callers are either guild members (with roles and a guild carrying
  its owner id) or bare users (DM context) — the `Caller` type.
* String helpers (`str.split(',')`, `str.strip()`, `str.isdigit()`, `int(s)`)
  are implemented by structural recursion over the character list so that all
  definitions evaluate inside the kernel.
-/

namespace DiscordBotUtils

/-! ## Python string helpers -/

/-- `s.split(',')` on the character list: split at every comma, keeping
empty fragments (Python semantics). -/
def splitOnCommaAux : List Char → List Char → List (List Char)
  | [], acc => [acc.reverse]
  | ch :: rest, acc =>
    if ch = ',' then acc.reverse :: splitOnCommaAux rest []
    else splitOnCommaAux rest (ch :: acc)

/-- Python `s.split(',')`. -/
def pySplitComma (s : String) : List String :=
  (splitOnCommaAux s.data []).map (fun l => String.mk l)

/-- Python `s.strip()`: remove leading and trailing whitespace. -/
def pyStrip (s : String) : String :=
  String.mk (((s.data.dropWhile Char.isWhitespace).reverse.dropWhile
      Char.isWhitespace).reverse)

/-- Python `s.isdigit()`: non-empty and all characters decimal digits. -/
def pyIsDigit (s : String) : Bool :=
  !s.data.isEmpty && s.data.all Char.isDigit

/-- Accumulating decimal evaluation of a digit string. -/
def digitsToNat : List Char → Nat → Nat
  | [], acc => acc
  | ch :: rest, acc => digitsToNat rest (acc * 10 + (ch.toNat - '0'.toNat))

/-- Python `int(s)` on a digit-only string. -/
def pyInt (s : String) : Int :=
  Int.ofNat (digitsToNat s.data 0)

/-- Python `int(s)` as it can actually fail: raises `ValueError` on a
non-digit string.  Used to show the `isdigit` filters in the source make the
conversion total. -/
def pyIntE (s : String) : Except String Int :=
  if pyIsDigit s then Except.ok (pyInt s)
  else Except.error ("invalid literal for int with base 10: " ++ s)

/-! ## `configparser` model -/

/-- A parsed `config.ini`: an association list of sections. -/
structure IniConfig where
  sections : List (String × List (String × String))

/-- Look up a section by name (first match). -/
def IniConfig.findSection (c : IniConfig) (s : String) :
    Option (List (String × String)) :=
  (c.sections.find? (fun p => p.1 == s)).map Prod.snd

/-- Python `section in config`. -/
def IniConfig.hasSection (c : IniConfig) (s : String) : Bool :=
  (c.findSection s).isSome

/-- Python `config.get(section, option, fallback=fb)`. -/
def IniConfig.get (c : IniConfig) (s k fb : String) : String :=
  match c.findSection s with
  | none => fb
  | some kvs =>
    match kvs.find? (fun p => p.1 == k) with
    | none => fb
    | some p => p.2

/-- Whether `option` is present in `section`. -/
def IniConfig.hasOption (c : IniConfig) (s k : String) : Bool :=
  match c.findSection s with
  | none => false
  | some kvs => (kvs.find? (fun p => p.1 == k)).isSome

/-- Python `config.getboolean(section, option, fallback=fb)`:
the fallback is used when the section or option is missing; a present but
unrecognised value raises `ValueError` (which is not a `configparser.Error`). -/
def IniConfig.getboolean (c : IniConfig) (s k : String) (fb : Bool) :
    Except String Bool :=
  match c.findSection s with
  | none => Except.ok fb
  | some kvs =>
    match kvs.find? (fun p => p.1 == k) with
    | none => Except.ok fb
    | some p =>
      let w := String.mk (p.2.data.map Char.toLower)
      if ["1", "yes", "true", "on"].contains w then Except.ok true
      else if ["0", "no", "false", "off"].contains w then Except.ok false
      else Except.error ("Not a boolean: " ++ p.2)

/-! ## Caller model (discord.Member / discord.User) -/

/-- A guild role; only its name is consulted by the permission code. -/
structure Role where
  name : String
deriving DecidableEq

/-- The guild, exposing only `owner_id` as the source does. -/
structure Guild where
  owner_id : Int
deriving DecidableEq

/-- A guild member: id, roles, and the guild. -/
structure Member where
  id : Int
  roles : List Role
  guild : Guild
deriving DecidableEq

/-- A caller is a guild member or a bare user (DM context, no roles). -/
inductive Caller where
  | member (m : Member)
  | user (id : Int)
deriving DecidableEq

/-- `member.id` in the source, for either shape of caller. -/
def callerId : Caller → Int
  | Caller.member m => m.id
  | Caller.user i => i

/-! ## Permission resolver (`src/utils/permission_handler.py`) -/

/-- `_parse_list_from_ini`: comma-separated string to a list of stripped,
non-empty items. -/
def _parse_list_from_ini (config_str : String) : List String :=
  if config_str = "" then []
  else ((pySplitComma config_str).map pyStrip).filter (fun item => item ≠ "")

/-- Non-empty intersection of two name lists; models
`not set(xs).isdisjoint(ys)`. -/
def hasCommonElement (xs ys : List String) : Bool :=
  xs.any (fun x => ys.contains x)

/-- The parsed permission state built by `PermissionManager.__init__`. -/
structure PermissionManager where
  admin_role_names : List String
  admin_user_ids : List Int
  config : IniConfig

/-- `PermissionManager.__init__`: parse `[Permissions] AdminRoles/AdminUsers`
(with empty-string fallbacks), keeping only digit-only user ids. -/
def PermissionManager.ofConfig (cfg : IniConfig) : PermissionManager :=
  { admin_role_names :=
      _parse_list_from_ini (cfg.get "Permissions" "AdminRoles" "")
    admin_user_ids :=
      ((_parse_list_from_ini (cfg.get "Permissions" "AdminUsers" "")).filter
        pyIsDigit).map pyInt
    config := cfg }

/-- `PermissionManager.is_bot_admin` (lines 69–105): id allow-list, then the
DM cutoff, then guild ownership, then the admin-role intersection. -/
def is_bot_admin (pm : PermissionManager) (c : Caller) : Bool :=
  if pm.admin_user_ids.contains (callerId c) then true
  else
    match c with
    | Caller.user _ => false
    | Caller.member m =>
      if m.guild.owner_id = m.id then true
      else if hasCommonElement (m.roles.map Role.name) pm.admin_role_names then
        true
      else false

/-- Exception-aware rendering of `is_bot_admin`: the role-name comparison of
step 4 sits inside `try/except` in the source; a failure there is logged and
falls through to `return False`.  Every operation of the embedding is total,
so the handler arm is dead — which is exactly the no-raise property. -/
def is_bot_adminE (pm : PermissionManager) (c : Caller) : Except String Bool :=
  if pm.admin_user_ids.contains (callerId c) then Except.ok true
  else
    match c with
    | Caller.user _ => Except.ok false
    | Caller.member m =>
      if m.guild.owner_id = m.id then Except.ok true
      else
        match (Except.ok
            (hasCommonElement (m.roles.map Role.name) pm.admin_role_names) :
            Except String Bool) with
        | Except.ok b => if b then Except.ok true else Except.ok false
        | Except.error _ => Except.ok false

/-- Section-selection of `_check_specific_permission` (lines 115–126):
`Command_<f>` first, else `Feature_<f>`, else none. -/
def featureSection (cfg : IniConfig) (feature_name : String) : Option String :=
  if cfg.hasSection ("Command_" ++ feature_name) then
    some ("Command_" ++ feature_name)
  else if cfg.hasSection ("Feature_" ++ feature_name) then
    some ("Feature_" ++ feature_name)
  else none

/-- `AllowedRoles` of a section, parsed as the source does. -/
def sectionAllowedRoleNames (cfg : IniConfig) (s : String) : List String :=
  _parse_list_from_ini (cfg.get s "AllowedRoles" "")

/-- `AllowedUsers` of a section, parsed as the source does (digit filter,
then `int`). -/
def sectionAllowedUserIds (cfg : IniConfig) (s : String) : List Int :=
  ((_parse_list_from_ini (cfg.get s "AllowedUsers" "")).filter pyIsDigit).map
    pyInt

/-- `PermissionManager._check_specific_permission` (lines 107–145). -/
def _check_specific_permission (cfg : IniConfig) (c : Caller)
    (feature_name : String) : Bool :=
  match featureSection cfg feature_name with
  | none => false
  | some s =>
    let allowed_role_names := sectionAllowedRoleNames cfg s
    let allowed_user_ids := sectionAllowedUserIds cfg s
    if allowed_user_ids.contains (callerId c) then true
    else
      match c with
      | Caller.member m =>
        hasCommonElement (m.roles.map Role.name) allowed_role_names
      | Caller.user _ => false

/-- Sequential `int` conversion of a list, stopping at the first failure. -/
def mapPyIntE : List String → Except String (List Int)
  | [] => Except.ok []
  | s :: rest =>
    match pyIntE s, mapPyIntE rest with
    | Except.ok i, Except.ok is => Except.ok (i :: is)
    | Except.error e, _ => Except.error e
    | _, Except.error e => Except.error e

/-- Exception-aware rendering of `_check_specific_permission`, with the
`int` conversion of allowed user ids made explicitly fallible (`pyIntE`);
the source's `isdigit` filter guards it. -/
def _check_specific_permissionE (cfg : IniConfig) (c : Caller)
    (feature_name : String) : Except String Bool :=
  match featureSection cfg feature_name with
  | none => Except.ok false
  | some s =>
    let allowed_role_names := sectionAllowedRoleNames cfg s
    match mapPyIntE ((_parse_list_from_ini (cfg.get s "AllowedUsers" "")).filter
        pyIsDigit) with
    | Except.error e => Except.error e
    | Except.ok allowed_user_ids =>
      if allowed_user_ids.contains (callerId c) then Except.ok true
      else
        match c with
        | Caller.member m =>
          Except.ok (hasCommonElement (m.roles.map Role.name)
            allowed_role_names)
        | Caller.user _ => Except.ok false

/-- The denial message raised by the `requires_permission` check layer
(text abstracted). -/
def checkFailureMessage (feature_name : String) : String :=
  "このコマンドの実行には " ++ feature_name ++ " の権限が必要です。"

/-- The check-layer predicate built by `requires_permission` (lines 187–200):
`Except.error` models the raised `commands.CheckFailure`; a missing caller
yields `False` without raising. -/
def requires_permission_predicate (pm : PermissionManager)
    (member : Option Caller) (feature_name : String) : Except String Bool :=
  match member with
  | none => Except.ok false
  | some m =>
    if is_bot_admin pm m then Except.ok true
    else if _check_specific_permission pm.config m feature_name then
      Except.ok true
    else Except.error (checkFailureMessage feature_name)

/-- The effective feature-permission decision for a present caller: the
check layer grants access exactly when its predicate returns `True`. -/
def grantsAccess (pm : PermissionManager) (c : Caller)
    (feature_name : String) : Bool :=
  match requires_permission_predicate pm (some c) feature_name with
  | Except.ok b => b
  | Except.error _ => false

/-! ## Error classifier (`src/utils/error_handler.py`) -/

/-- Log severities used by the handler. -/
inductive LogLevel where
  | debug
  | info
  | warning
  | error
  | critical
deriving DecidableEq

/-- One log record: severity, message, and whether the stack trace is
attached (`exc_info`). -/
structure LogRecord where
  level : LogLevel
  message : String
  exc_info : Bool
deriving DecidableEq

/-- What one call of `process_command_error` produces: the log records
written and the user notices sent (in order). -/
structure HandlerOutput where
  logs : List LogRecord
  userMessages : List String
deriving DecidableEq

/-- The error taxonomy distinguished by `process_command_error`'s
`isinstance` chain.  Constructors carry the payload the handler reads. -/
inductive CmdError where
  | commandNotFound
  | appCommandNotFound
  | checkFailure
  | appCheckFailure
  | missingRequiredArgument (detail : String)
  | badArgument (detail : String)
  | rateLimited (retryAfter : String)
  | forbidden (missingPerms : String)
  | externalAPIError (message : String)
  | other (detail : String)
deriving DecidableEq

/-- A raised exception, possibly a `CommandInvokeError`-style wrapper with an
`original` attribute. -/
inductive Raised where
  | plain (e : CmdError)
  | invoke (original : CmdError)
deriving DecidableEq

/-- `getattr(error, 'original', error)`. -/
def getOriginal : Raised → CmdError
  | Raised.plain e => e
  | Raised.invoke e => e

/-- The handler state built in `ErrorHandler.__init__`: only the
`NotifyErrorToDiscord` flag matters to the classification. -/
structure ErrorHandler where
  notify_user_on_error : Bool
deriving DecidableEq

/-- `ErrorHandler.__init__` (lines 36–57): read
`[Logging] NotifyErrorToDiscord` once with `fallback=False`.  The
`except configparser.Error` clause cannot catch the `ValueError` of a
malformed boolean, so that error propagates. -/
def ErrorHandler.ofConfig (cfg : IniConfig) : Except String ErrorHandler :=
  match cfg.getboolean "Logging" "NotifyErrorToDiscord" false with
  | Except.ok b => Except.ok ⟨b⟩
  | Except.error e => Except.error e

/-- User notice of the authorization-denied rule. -/
def permissionDeniedUserMessage : String :=
  "あなたはこのコマンドを実行する権限がありません。"

/-- Log message of the unclassified-error rule. -/
def unexpectedErrorLogMessage : String :=
  "コマンド実行中に予期せぬエラーが発生しました。"

/-- User notice of the unclassified-error rule. -/
def unexpectedErrorUserMessage : String :=
  "予期せぬエラーが発生しました。管理者に通知されました。"

/-- `ErrorHandler.process_command_error` (lines 99–161): unwrap `original`,
then classify with the first matching rule.  Reply sending is modelled as
always succeeding (its own failure handling in `_send_error_message` is
internal to the send). -/
def processCommandError (h : ErrorHandler) (raised : Raised) : HandlerOutput :=
  match getOriginal raised with
  | CmdError.commandNotFound => ⟨[], []⟩
  | CmdError.appCommandNotFound => ⟨[], []⟩
  | CmdError.checkFailure => ⟨[], [permissionDeniedUserMessage]⟩
  | CmdError.appCheckFailure => ⟨[], [permissionDeniedUserMessage]⟩
  | CmdError.missingRequiredArgument detail =>
    ⟨[⟨LogLevel.warning, "[Usage Error] " ++ detail, false⟩],
      ["コマンドの使い方が間違っています。\n" ++ detail]⟩
  | CmdError.badArgument detail =>
    ⟨[⟨LogLevel.warning, "[Usage Error] " ++ detail, false⟩],
      ["コマンドの使い方が間違っています。\n" ++ detail]⟩
  | CmdError.rateLimited retryAfter =>
    ⟨[⟨LogLevel.warning,
        "Discord APIのレートリミットに達しました。" ++ retryAfter ++ "秒待機します。",
        false⟩], []⟩
  | CmdError.forbidden missingPerms =>
    ⟨[⟨LogLevel.error,
        "Discord APIエラー (403 Forbidden): ボットに必要な権限がありません。不足権限: "
          ++ missingPerms, false⟩],
      ["ボットの権限が不足しています。サーバー管理者に連絡してください。"]⟩
  | CmdError.externalAPIError message =>
    ⟨[⟨LogLevel.warning, "[External API Error] " ++ message, false⟩],
      ["外部APIへの接続に失敗しました: " ++ message]⟩
  | CmdError.other _ =>
    ⟨[⟨LogLevel.error, unexpectedErrorLogMessage, true⟩],
      if h.notify_user_on_error then [unexpectedErrorUserMessage] else []⟩

/-! ## Task scheduler (`src/utils/task_scheduler.py`)

The scheduler is a thin wrapper around APScheduler; the claims only concern
how backend failures move through `__init__` and `start`.  The underlying
library call is abstracted as an `Except String Unit` outcome. -/

/-- `TaskScheduler.__init__` (lines 32–72): building the SQLAlchemy job
store / scheduler sits inside `try/except` that logs critically and
**re-raises** (`raise`), so a failure propagates to the caller. -/
def TaskScheduler.construct (jobstoreInit : Except String Unit) :
    Except String (List LogRecord) :=
  match jobstoreInit with
  | Except.ok _ =>
    Except.ok
      [⟨LogLevel.info, "TaskScheduler が初期化されました。ジョブストア (DB) を使用します。",
        false⟩]
  | Except.error e => Except.error e

/-- `TaskScheduler.start` (lines 74–85): `self.scheduler.start()` sits inside
`try/except Exception` that logs the failure and does **not** re-raise, so
`start` always returns normally. -/
def TaskScheduler.start (schedulerStart : Except String Unit) :
    Except String (List LogRecord) :=
  match schedulerStart with
  | Except.ok _ =>
    Except.ok [⟨LogLevel.info, "TaskScheduler が開始されました。", false⟩]
  | Except.error e =>
    Except.ok [⟨LogLevel.error, "TaskScheduler の開始に失敗: " ++ e, true⟩]

/-! ## Settings store (`src/utils/db_manager.py`)

The `guild_settings` table is modelled as a list of rows in table order;
`.scalars().first()` is first-match lookup.  The autoincrement surrogate
`id` column plays no role in the repository logic and is omitted. -/

/-- One row of `guild_settings`. -/
structure GuildSetting where
  guild_id : Int
  setting_key : String
  setting_value : String
deriving DecidableEq

/-- The `WHERE guild_id == g AND setting_key == k` filter. -/
def keyMatches (g : Int) (k : String) (r : GuildSetting) : Bool :=
  r.guild_id == g && r.setting_key == k

/-- The `(guild_id, setting_key)` composite key of a row. -/
def keyOf (r : GuildSetting) : Int × String :=
  (r.guild_id, r.setting_key)

/-- The `UniqueConstraint('guild_id', 'setting_key')` table invariant. -/
def uniqueKeys (db : List GuildSetting) : Prop :=
  (db.map keyOf).Nodup

/-- `GuildSettingRepository.set_setting` (lines 170–194): select the first
matching row; update its value in place if present, otherwise insert a new
row. -/
def set_setting : List GuildSetting → Int → String → String → List GuildSetting
  | [], g, k, v => [⟨g, k, v⟩]
  | r :: rest, g, k, v =>
    if keyMatches g k r then { r with setting_value := v } :: rest
    else r :: set_setting rest g k v

/-- `GuildSettingRepository.get_setting` (lines 196–208): value of the first
matching row, `None` when absent. -/
def get_setting (db : List GuildSetting) (g : Int) (k : String) :
    Option String :=
  (db.find? (keyMatches g k)).map GuildSetting.setting_value

/-- `GuildSettingRepository.delete_setting` (lines 210–226): remove the first
matching row, returning whether one was found together with the new table. -/
def delete_setting : List GuildSetting → Int → String → Bool × List GuildSetting
  | [], _, _ => (false, [])
  | r :: rest, g, k =>
    if keyMatches g k r then (true, rest)
    else
      let p := delete_setting rest g k
      (p.1, r :: p.2)

/-! ## Concrete fixtures

A configuration mirroring the repository's own example scenario
(`permission_handler.py` self-test and spec §8): bot admins by role and id,
and a `Command_hr_tool` section. -/

def exampleConfig : IniConfig :=
  ⟨[("Logging", [("LogLevel", "DEBUG"), ("NotifyErrorToDiscord", "False")]),
    ("Permissions",
      [("AdminRoles", "BotAdmin, 運営"), ("AdminUsers", "100001, 100002")]),
    ("Command_hr_tool", [("AllowedRoles", "人事部"), ("AllowedUsers", "200001")])]⟩

def pmExample : PermissionManager := PermissionManager.ofConfig exampleConfig

def guildExample : Guild := ⟨500000⟩

def adminByIdCaller : Caller := Caller.member ⟨100001, [], guildExample⟩

def hrByRoleCaller : Caller := Caller.member ⟨200002, [⟨"人事部"⟩], guildExample⟩

def normalCaller : Caller := Caller.member ⟨300001, [⟨"一般"⟩], guildExample⟩

/-- A config defining only `Command_hr_tool`. -/
def configCmdOnly : IniConfig :=
  ⟨[("Command_hr_tool", [("AllowedRoles", "人事部"), ("AllowedUsers", "200001")])]⟩

/-- The same `Command_hr_tool` section plus a conflicting `Feature_hr_tool`
section. -/
def configCmdAndFeature : IniConfig :=
  ⟨[("Command_hr_tool", [("AllowedRoles", "人事部"), ("AllowedUsers", "200001")]),
    ("Feature_hr_tool", [("AllowedRoles", "Sales"), ("AllowedUsers", "300001")])]⟩

/-- A one-row settings table, as in the `db_manager.py` self-test. -/
def dbExample : List GuildSetting := [⟨999999, "prefix", "!"⟩]

instance (db : List GuildSetting) : Decidable (uniqueKeys db) :=
  inferInstanceAs (Decidable ((db.map keyOf).Nodup))

/-! ## Helper lemmas -/

/-- The row filter holds exactly on rows with the queried composite key. -/
theorem keyMatches_iff (g : Int) (k : String) (r : GuildSetting) :
    keyMatches g k r = true ↔ keyOf r = (g, k) := by
  simp [keyMatches, keyOf, Prod.ext_iff]

/-- Reading a key right after upserting it yields the upserted value. -/
theorem get_after_set (db : List GuildSetting) (g : Int) (k v : String) :
    get_setting (set_setting db g k v) g k = some v := by
  induction db with
  | nil =>
    simp [set_setting, get_setting, List.find?, keyMatches]
  | cons r rest ih =>
    by_cases h : keyMatches g k r = true
    · have h2 : keyMatches g k { r with setting_value := v } = true := by
        simpa [keyMatches] using h
      simp [set_setting, h, get_setting, List.find?, h2]
    · rw [Bool.not_eq_true] at h
      simp only [set_setting, h, if_false, Bool.false_eq_true]
      simpa [get_setting, List.find?, h] using ih

/-- Deletion only removes rows. -/
theorem delete_sublist (db : List GuildSetting) (g : Int) (k : String) :
    (delete_setting db g k).2.Sublist db := by
  induction db with
  | nil => simp [delete_setting]
  | cons r rest ih =>
    by_cases h : keyMatches g k r = true
    · simp [delete_setting, h]
    · rw [Bool.not_eq_true] at h
      simp only [delete_setting, h, Bool.false_eq_true, if_false]
      exact List.Sublist.cons₂ r ih

/-- A table without the queried key yields no row. -/
theorem find?_none_of_no_key (db : List GuildSetting) (g : Int) (k : String)
    (h : ∀ r ∈ db, keyOf r ≠ (g, k)) :
    db.find? (keyMatches g k) = none := by
  rw [List.find?_eq_none]
  intro r hr
  intro hmatch
  exact h r hr ((keyMatches_iff g k r).mp hmatch)

/-- On a table satisfying the uniqueness constraint, a read after a delete of
the same key misses. -/
theorem get_after_delete (db : List GuildSetting) (g : Int) (k : String)
    (h : uniqueKeys db) :
    get_setting (delete_setting db g k).2 g k = none := by
  induction db with
  | nil => simp [delete_setting, get_setting]
  | cons r rest ih =>
    have hnodup := (List.nodup_cons.mp h)
    by_cases hm : keyMatches g k r = true
    · simp only [delete_setting, hm, if_true]
      have hkr : keyOf r = (g, k) := (keyMatches_iff g k r).mp hm
      have : ∀ s ∈ rest, keyOf s ≠ (g, k) := by
        intro s hs hcontra
        apply hnodup.1
        rw [hkr, ← hcontra]
        exact List.mem_map_of_mem keyOf hs
      simp [get_setting, find?_none_of_no_key rest g k this]
    · rw [Bool.not_eq_true] at hm
      simp only [delete_setting, hm, Bool.false_eq_true, if_false]
      simpa [get_setting, List.find?, hm] using ih hnodup.2

/-- Upsert either keeps the key multiset (update) or appends the new key
(insert). -/
theorem keys_of_set (db : List GuildSetting) (g : Int) (k v : String) :
    (set_setting db g k v).map keyOf =
      if db.any (keyMatches g k) then db.map keyOf
      else db.map keyOf ++ [(g, k)] := by
  induction db with
  | nil => simp [set_setting, keyOf]
  | cons r rest ih =>
    by_cases h : keyMatches g k r = true
    · simp [set_setting, h, List.any_cons, keyOf]
    · rw [Bool.not_eq_true] at h
      simp only [set_setting, h, Bool.false_eq_true, if_false, List.map_cons,
        List.any_cons, Bool.false_or, ih]
      by_cases ha : rest.any (keyMatches g k) = true
      · simp [ha]
      · rw [Bool.not_eq_true] at ha
        simp [ha]

/-- Upserting an existing key keeps the row count: it updates in place. -/
theorem length_of_set_existing (db : List GuildSetting) (g : Int) (k v : String)
    (h : db.any (keyMatches g k) = true) :
    (set_setting db g k v).length = db.length := by
  induction db with
  | nil => simp at h
  | cons r rest ih =>
    by_cases hm : keyMatches g k r = true
    · simp [set_setting, hm]
    · rw [Bool.not_eq_true] at hm
      have hrest : rest.any (keyMatches g k) = true := by
        simpa [List.any_cons, hm] using h
      simp [set_setting, hm, ih hrest]

/-- Upsert preserves the composite-key uniqueness invariant. -/
theorem unique_preserved_by_set (db : List GuildSetting) (g : Int)
    (k v : String) (h : uniqueKeys db) : uniqueKeys (set_setting db g k v) := by
  unfold uniqueKeys
  rw [keys_of_set]
  by_cases ha : db.any (keyMatches g k) = true
  · simpa [ha] using h
  · rw [Bool.not_eq_true] at ha
    simp only [ha, Bool.false_eq_true, if_false]
    rw [List.nodup_append]
    refine ⟨h, List.nodup_singleton _, ?_⟩
    intro p hp hq
    simp only [List.mem_singleton] at hq
    subst hq
    rw [List.mem_map] at hp
    obtain ⟨r, hr, hkr⟩ := hp
    have : keyMatches g k r = true := (keyMatches_iff g k r).mpr hkr
    rw [List.any_eq_false] at ha
    exact absurd this (by simpa using ha r hr)

/-- Delete preserves the composite-key uniqueness invariant. -/
theorem unique_preserved_by_delete (db : List GuildSetting) (g : Int)
    (k : String) (h : uniqueKeys db) :
    uniqueKeys (delete_setting db g k).2 :=
  List.Nodup.sublist (List.Sublist.map keyOf (delete_sublist db g k)) h

/-- The specific-permission check succeeds exactly on a configured section
granting the caller by id or by role. -/
theorem check_specific_true_iff (cfg : IniConfig) (c : Caller) (f : String) :
    _check_specific_permission cfg c f = true ↔
      ∃ s, featureSection cfg f = some s ∧
        (callerId c ∈ sectionAllowedUserIds cfg s ∨
          ∃ m, c = Caller.member m ∧
            hasCommonElement (m.roles.map Role.name)
              (sectionAllowedRoleNames cfg s) = true) := by
  unfold _check_specific_permission
  cases hs : featureSection cfg f with
  | none => simp [hs]
  | some s =>
    simp only [hs, Option.some.injEq]
    by_cases hu : callerId c ∈ sectionAllowedUserIds cfg s
    · simp [hu]
    · cases c with
      | member m => simp [hu]
      | user i => simp [hu]

/-- On lists that passed the `isdigit` filter, fallible `int` conversion
succeeds with the same values as the total one. -/
theorem mapPyIntE_filtered (l : List String) :
    mapPyIntE (l.filter pyIsDigit) =
      Except.ok ((l.filter pyIsDigit).map pyInt) := by
  have key : ∀ xs : List String, (∀ x ∈ xs, pyIsDigit x = true) →
      mapPyIntE xs = Except.ok (xs.map pyInt) := by
    intro xs
    induction xs with
    | nil => intro _; rfl
    | cons a as ih =>
      intro h
      have ha : pyIsDigit a = true := h a (List.mem_cons_self a as)
      have has : ∀ x ∈ as, pyIsDigit x = true :=
        fun x hx => h x (List.mem_cons_of_mem a hx)
      simp [mapPyIntE, pyIntE, ha, ih has]
  exact key _ (fun x hx => (List.mem_filter.mp hx).2)

/-! ## Claim theorems -/

/-- Claim C1: `is_bot_admin` applies its rules in order — admin-user-id
membership grants; otherwise a caller without guild-member context is
refused; otherwise guild ownership grants; otherwise a non-empty
intersection of role names with the admin role names grants; otherwise the
caller is refused. -/
theorem is_bot_admin_ordered_rules (pm : PermissionManager) (c : Caller) :
    (callerId c ∈ pm.admin_user_ids → is_bot_admin pm c = true) ∧
    (∀ uid, c = Caller.user uid → callerId c ∉ pm.admin_user_ids →
      is_bot_admin pm c = false) ∧
    (∀ m, c = Caller.member m → m.guild.owner_id = m.id →
      is_bot_admin pm c = true) ∧
    (∀ m, c = Caller.member m →
      hasCommonElement (m.roles.map Role.name) pm.admin_role_names = true →
      is_bot_admin pm c = true) ∧
    (∀ m, c = Caller.member m → callerId c ∉ pm.admin_user_ids →
      m.guild.owner_id ≠ m.id →
      hasCommonElement (m.roles.map Role.name) pm.admin_role_names = false →
      is_bot_admin pm c = false) := by
  refine ⟨fun h => by simp [is_bot_admin, h], ?_, ?_, ?_, ?_⟩
  · rintro uid rfl h
    simp [is_bot_admin, h]
  · rintro m rfl howner
    simp [is_bot_admin, howner]
  · rintro m rfl hrole
    simp [is_bot_admin, hrole]
  · rintro m rfl hid howner hrole
    simp [is_bot_admin, hid, howner, hrole]

/-- Witness for C1: the example admin by id is granted by rule 1. -/
theorem is_bot_admin_ordered_rules_witness :
    callerId adminByIdCaller ∈ pmExample.admin_user_ids ∧
    is_bot_admin pmExample adminByIdCaller = true := by
  have h : callerId adminByIdCaller ∈ pmExample.admin_user_ids := by decide
  exact ⟨h, (is_bot_admin_ordered_rules pmExample adminByIdCaller).1 h⟩

/-- Claim C2: the feature-permission check grants access exactly when the
caller is a bot admin, or a configured section for the feature lists the
caller's id, or the caller is a guild member whose role names intersect the
section's allowed roles; with no configured section only admin status can
grant. -/
theorem feature_permission_grant_iff (pm : PermissionManager) (c : Caller)
    (f : String) :
    grantsAccess pm c f = true ↔
      (is_bot_admin pm c = true ∨
        ∃ s, featureSection pm.config f = some s ∧
          (callerId c ∈ sectionAllowedUserIds pm.config s ∨
            ∃ m, c = Caller.member m ∧
              hasCommonElement (m.roles.map Role.name)
                (sectionAllowedRoleNames pm.config s) = true)) := by
  rw [← check_specific_true_iff pm.config c f]
  unfold grantsAccess requires_permission_predicate
  by_cases hA : is_bot_admin pm c = true
  · simp [hA]
  · rw [Bool.not_eq_true] at hA
    by_cases hC : _check_specific_permission pm.config c f = true
    · simp [hA, hC]
    · rw [Bool.not_eq_true] at hC
      simp [hA, hC]

/-- Witness for C2: the HR-role caller is granted `hr_tool` through the
`Command_hr_tool` allowed-role list. -/
theorem feature_permission_grant_iff_witness :
    grantsAccess pmExample hrByRoleCaller "hr_tool" = true :=
  (feature_permission_grant_iff pmExample hrByRoleCaller "hr_tool").mpr
    (Or.inr ⟨"Command_hr_tool", by decide,
      Or.inr ⟨⟨200002, [⟨"人事部"⟩], guildExample⟩, rfl, by decide⟩⟩)

/-- Claim C3: for a feature with neither a `Command_<f>` nor a `Feature_<f>`
section, the effective feature permission equals `is_bot_admin`. -/
theorem no_section_defers_to_admin (pm : PermissionManager) (c : Caller)
    (f : String)
    (h1 : pm.config.hasSection ("Command_" ++ f) = false)
    (h2 : pm.config.hasSection ("Feature_" ++ f) = false) :
    grantsAccess pm c f = is_bot_admin pm c := by
  have hfs : featureSection pm.config f = none := by
    simp [featureSection, h1, h2]
  have hc : _check_specific_permission pm.config c f = false := by
    unfold _check_specific_permission
    rw [hfs]
  unfold grantsAccess requires_permission_predicate
  by_cases hA : is_bot_admin pm c = true
  · simp [hA]
  · rw [Bool.not_eq_true] at hA
    simp [hA, hc]

/-- Witness for C3 at an unconfigured feature name. -/
theorem no_section_defers_to_admin_witness :
    pmExample.config.hasSection ("Command_" ++ "unknown_feature") = false ∧
    pmExample.config.hasSection ("Feature_" ++ "unknown_feature") = false ∧
    grantsAccess pmExample normalCaller "unknown_feature" =
      is_bot_admin pmExample normalCaller := by
  have h1 : pmExample.config.hasSection ("Command_" ++ "unknown_feature") =
      false := by decide
  have h2 : pmExample.config.hasSection ("Feature_" ++ "unknown_feature") =
      false := by decide
  exact ⟨h1, h2,
    no_section_defers_to_admin pmExample normalCaller "unknown_feature" h1 h2⟩

/-- Claim C4 (amended): a backend failure at `start()` is caught inside
`start` and logged; `start` returns normally and the failure does not
propagate — only a failure during `TaskScheduler` construction is re-raised
to the caller. -/
theorem start_catches_construct_propagates (e : String) :
    TaskScheduler.start (Except.error e) =
      Except.ok [⟨LogLevel.error, "TaskScheduler の開始に失敗: " ++ e, true⟩] ∧
    TaskScheduler.construct (Except.error e) = Except.error e :=
  ⟨rfl, rfl⟩

/-- Counterexample for C4 as stated: with the durable backend unavailable,
no error propagates out of `start()` — the exception is swallowed. -/
theorem start_swallows_backend_failure_cex :
    ¬ ∃ msg, TaskScheduler.start (Except.error "database unavailable") =
        Except.error msg := by
  rintro ⟨msg, h⟩
  simp [TaskScheduler.start] at h

/-- Claim C5: a missing-command error is fully silent (no log record, no
user message), and an authorization-denied `CheckFailure` produces exactly
one insufficient-permission notice and no log record, for every handler
state. -/
theorem silent_and_denied_classification (h : ErrorHandler) (r : Raised) :
    ((getOriginal r = CmdError.commandNotFound ∨
        getOriginal r = CmdError.appCommandNotFound) →
      processCommandError h r = ⟨[], []⟩) ∧
    ((getOriginal r = CmdError.checkFailure ∨
        getOriginal r = CmdError.appCheckFailure) →
      processCommandError h r = ⟨[], [permissionDeniedUserMessage]⟩) := by
  constructor
  · rintro (he | he) <;> simp [processCommandError, he]
  · rintro (he | he) <;> simp [processCommandError, he]

/-- Witness for C5 on a plain `CommandNotFound` and a wrapped
`CheckFailure`. -/
theorem silent_and_denied_classification_witness :
    processCommandError ⟨false⟩ (Raised.plain CmdError.commandNotFound) =
      ⟨[], []⟩ ∧
    processCommandError ⟨false⟩ (Raised.invoke CmdError.checkFailure) =
      ⟨[], [permissionDeniedUserMessage]⟩ :=
  ⟨(silent_and_denied_classification ⟨false⟩ _).1 (Or.inl rfl),
    (silent_and_denied_classification ⟨false⟩ _).2 (Or.inl rfl)⟩

/-- Claim C6: an unclassified error yields exactly one error log record with
the stack trace, plus an unexpected-error notice exactly when the
`NotifyErrorToDiscord` flag read at construction is set; and a config
without that option constructs the handler with the flag `false`. -/
theorem unclassified_error_policy :
    (∀ (cfg : IniConfig) (h : ErrorHandler) (r : Raised) (d : String),
      ErrorHandler.ofConfig cfg = Except.ok h →
      getOriginal r = CmdError.other d →
      processCommandError h r =
        ⟨[⟨LogLevel.error, unexpectedErrorLogMessage, true⟩],
          if h.notify_user_on_error then [unexpectedErrorUserMessage]
          else []⟩) ∧
    (∀ cfg : IniConfig,
      cfg.hasOption "Logging" "NotifyErrorToDiscord" = false →
      ErrorHandler.ofConfig cfg = Except.ok ⟨false⟩) := by
  constructor
  · intro cfg h r d _ he
    simp [processCommandError, he]
  · intro cfg hno
    unfold IniConfig.hasOption at hno
    unfold ErrorHandler.ofConfig IniConfig.getboolean
    cases hfs : cfg.findSection "Logging" with
    | none => simp
    | some kvs =>
      simp only [hfs] at hno
      cases hf : kvs.find? (fun p => p.1 == "NotifyErrorToDiscord") with
      | none => simp [hf]
      | some p =>
        rw [hf] at hno
        simp at hno

/-- Witness for C6: with the example config (flag off), an unclassified
error is logged with stack and no notice is sent. -/
theorem unclassified_error_policy_witness :
    ErrorHandler.ofConfig exampleConfig = Except.ok ⟨false⟩ ∧
    processCommandError ⟨false⟩
        (Raised.invoke (CmdError.other "ZeroDivisionError")) =
      ⟨[⟨LogLevel.error, unexpectedErrorLogMessage, true⟩], []⟩ := by
  have h : ErrorHandler.ofConfig exampleConfig = Except.ok ⟨false⟩ := rfl
  refine ⟨h, ?_⟩
  have h2 := unclassified_error_policy.1 exampleConfig ⟨false⟩
    (Raised.invoke (CmdError.other "ZeroDivisionError")) "ZeroDivisionError"
    h rfl
  simpa using h2

/-- Claim C7: on a table satisfying the composite-key constraint, two
successive upserts of the same key read back as the second value, and a
delete of a key reads back as absent. -/
theorem settings_upsert_delete_roundtrip (db : List GuildSetting) (g : Int)
    (k v1 v2 : String) (h : uniqueKeys db) :
    get_setting (set_setting (set_setting db g k v1) g k v2) g k = some v2 ∧
    get_setting (delete_setting db g k).2 g k = none :=
  ⟨get_after_set _ g k v2, get_after_delete db g k h⟩

/-- Witness for C7 on the one-row example table. -/
theorem settings_upsert_delete_roundtrip_witness :
    uniqueKeys dbExample ∧
    get_setting (set_setting (set_setting dbExample 999999 "prefix" "!")
      999999 "prefix" "$") 999999 "prefix" = some "$" ∧
    get_setting (delete_setting dbExample 999999 "prefix").2
      999999 "prefix" = none := by
  have h : uniqueKeys dbExample := by decide
  obtain ⟨h1, h2⟩ :=
    settings_upsert_delete_roundtrip dbExample 999999 "prefix" "!" "$" h
  exact ⟨h, h1, h2⟩

/-- Claim C8: upsert and delete preserve the at-most-one-row-per
`(guild_id, setting_key)` invariant, and an upsert on an existing pair
updates the row in place instead of inserting a second one (the read
operation does not change the table by construction). -/
theorem settings_unique_key_invariant (db : List GuildSetting) (g : Int)
    (k v : String) (h : uniqueKeys db) :
    uniqueKeys (set_setting db g k v) ∧
    uniqueKeys (delete_setting db g k).2 ∧
    (db.any (keyMatches g k) = true →
      (set_setting db g k v).length = db.length) :=
  ⟨unique_preserved_by_set db g k v h, unique_preserved_by_delete db g k h,
    fun hm => length_of_set_existing db g k v hm⟩

/-- Witness for C8 on the one-row example table. -/
theorem settings_unique_key_invariant_witness :
    uniqueKeys dbExample ∧
    dbExample.any (keyMatches 999999 "prefix") = true ∧
    uniqueKeys (set_setting dbExample 999999 "prefix" "$") ∧
    uniqueKeys (delete_setting dbExample 999999 "prefix").2 ∧
    (set_setting dbExample 999999 "prefix" "$").length = dbExample.length := by
  have h : uniqueKeys dbExample := by decide
  have hm : dbExample.any (keyMatches 999999 "prefix") = true := by decide
  obtain ⟨h1, h2, h3⟩ :=
    settings_unique_key_invariant dbExample 999999 "prefix" "$" h
  exact ⟨h, hm, h1, h2, h3 hm⟩

/-- Claim C9: the exception-aware renderings of both resolvers always return
`Except.ok` of the boolean the total functions compute — a denial is the
value `false`, never a raise — and the `CheckFailure` control signal is
produced only by the check-layer predicate, exactly when both resolvers
denied. -/
theorem resolvers_return_bool_never_raise (pm : PermissionManager)
    (c : Caller) (f : String) :
    is_bot_adminE pm c = Except.ok (is_bot_admin pm c) ∧
    _check_specific_permissionE pm.config c f =
      Except.ok (_check_specific_permission pm.config c f) ∧
    (requires_permission_predicate pm (some c) f =
        Except.error (checkFailureMessage f) ↔
      is_bot_admin pm c = false ∧
        _check_specific_permission pm.config c f = false) := by
  refine ⟨?_, ?_, ?_⟩
  · unfold is_bot_adminE is_bot_admin
    by_cases h : callerId c ∈ pm.admin_user_ids
    · simp [h]
    · cases c with
      | user i => simp [h]
      | member m =>
        by_cases ho : m.guild.owner_id = m.id
        · simp [h, ho]
        · by_cases hr : hasCommonElement (m.roles.map Role.name)
              pm.admin_role_names = true
          · simp [h, ho, hr]
          · rw [Bool.not_eq_true] at hr
            simp [h, ho, hr]
  · unfold _check_specific_permissionE _check_specific_permission
    cases hs : featureSection pm.config f with
    | none => simp
    | some s =>
      have hids : sectionAllowedUserIds pm.config s =
          ((_parse_list_from_ini (pm.config.get s "AllowedUsers" "")).filter
            pyIsDigit).map pyInt := rfl
      simp only [mapPyIntE_filtered, ← hids]
      by_cases hu : callerId c ∈ sectionAllowedUserIds pm.config s
      · simp [hu]
      · cases c with
        | member m => simp [hu]
        | user i => simp [hu]
  · unfold requires_permission_predicate
    by_cases hA : is_bot_admin pm c = true
    · simp [hA]
    · rw [Bool.not_eq_true] at hA
      by_cases hC : _check_specific_permission pm.config c f = true
      · simp [hA, hC]
      · rw [Bool.not_eq_true] at hC
        simp [hA, hC]

/-- Witness for C9: the denied example caller gets `ok` from the resolver
and the raise happens in the check layer. -/
theorem resolvers_return_bool_never_raise_witness :
    is_bot_adminE pmExample normalCaller =
      Except.ok (is_bot_admin pmExample normalCaller) ∧
    requires_permission_predicate pmExample (some normalCaller) "hr_tool" =
      Except.error (checkFailureMessage "hr_tool") := by
  obtain ⟨h1, _, h3⟩ :=
    resolvers_return_bool_never_raise pmExample normalCaller "hr_tool"
  exact ⟨h1, h3.mpr ⟨by decide, by decide⟩⟩

/-- Claim C10: when a `Command_<f>` section exists, the specific-permission
result depends only on that section — two configs agreeing on `Command_<f>`
decide identically no matter what any `Feature_<f>` section says. -/
theorem command_section_shadows_feature_section (cfg cfg' : IniConfig)
    (c : Caller) (f : String)
    (h : cfg.hasSection ("Command_" ++ f) = true)
    (h' : cfg'.hasSection ("Command_" ++ f) = true)
    (hagree : ∀ k fb,
      cfg.get ("Command_" ++ f) k fb = cfg'.get ("Command_" ++ f) k fb) :
    _check_specific_permission cfg c f =
      _check_specific_permission cfg' c f := by
  have hs : featureSection cfg f = some ("Command_" ++ f) := by
    simp [featureSection, h]
  have hs' : featureSection cfg' f = some ("Command_" ++ f) := by
    simp [featureSection, h']
  unfold _check_specific_permission
  rw [hs, hs']
  simp only [sectionAllowedRoleNames, sectionAllowedUserIds, hagree]

/-- Witness for C10: adding a conflicting `Feature_hr_tool` section next to
`Command_hr_tool` does not change the decision. -/
theorem command_section_shadows_feature_section_witness :
    configCmdAndFeature.hasSection ("Command_" ++ "hr_tool") = true ∧
    configCmdAndFeature.hasSection ("Feature_" ++ "hr_tool") = true ∧
    configCmdOnly.hasSection ("Feature_" ++ "hr_tool") = false ∧
    _check_specific_permission configCmdAndFeature hrByRoleCaller "hr_tool" =
      _check_specific_permission configCmdOnly hrByRoleCaller "hr_tool" := by
  refine ⟨by decide, by decide, by decide, ?_⟩
  exact command_section_shadows_feature_section configCmdAndFeature
    configCmdOnly hrByRoleCaller "hr_tool" (by decide) (by decide)
    (fun k fb => rfl)

end DiscordBotUtils
